import Mathlib

/-!
Shallow embedding of the `serve` static HTTP file server, translated from
`src/server.rs` and `src/logger.rs`.

Modelling conventions:
- Rust `String`/`&str` values become Lean `String`; byte lengths use
  `String.utf8ByteSize` (Rust `String::len` counts UTF-8 bytes).
- Filesystem paths become `List String` (the component sequence of the path).
- The filesystem itself is a finite association list from canonical paths to
  entries (regular file with contents, or directory).  `Path::canonicalize`
  is modelled for symlink-free filesystems: textual resolution of `..`
  segments followed by an existence check, failing with `NotFound` when the
  resolved path does not exist (the behaviour of `realpath` relevant here).
- The request byte stream, as consumed through `BufReader::lines`, becomes a
  list of items: either a complete line (terminators already stripped, as
  `Lines` does) or an I/O failure carrying its error kind.
- Rust `HashMap<String, String>` becomes an association list with
  replace-or-append insertion.  Its iteration order is unspecified in Rust,
  so the response serializer takes the iteration order as an explicit
  parameter, constrained to be a permutation of the stored entries.
-/

deriving instance DecidableEq for Except

namespace Serve

/-- Rust `str::trim_start_matches` with a `char` pattern: repeatedly removes
the matching character from the front. -/
def trimStartMatchesChar (s : String) (c : Char) : String :=
  ⟨s.data.dropWhile (fun x => x = c)⟩

/-- Rust `str::trim_end_matches` with a `char` pattern: repeatedly removes
the matching character from the end. -/
def trimEndMatchesChar (s : String) (c : Char) : String :=
  ⟨(s.data.reverse.dropWhile (fun x => x = c)).reverse⟩

/-- First step of `resolve_uri` in `src/server.rs`:
`path.trim_start_matches('/').trim_end_matches('/')`. -/
def trimTarget (s : String) : String :=
  trimEndMatchesChar (trimStartMatchesChar s '/') '/'

/-- Rust `str::trim`: removes whitespace from both ends. -/
def rustTrim (s : String) : String :=
  ⟨((s.data.dropWhile Char.isWhitespace).reverse.dropWhile Char.isWhitespace).reverse⟩

/-- Splitting a character list at every character satisfying `p`, keeping
empty pieces (the semantics of splitting on single separators). -/
def splitChars (p : Char → Bool) : List Char → List (List Char)
  | [] => [[]]
  | c :: rest =>
    let r := splitChars p rest
    if p c then [] :: r
    else
      match r with
      | [] => [[c]]
      | t :: ts => (c :: t) :: ts

/-- Rust `str::split_whitespace`: splits on whitespace runs, yielding no
empty tokens. -/
def splitWhitespace (s : String) : List String :=
  ((splitChars Char.isWhitespace s.data).map (fun l => ⟨l⟩)).filter (fun t => t ≠ "")

def splitOnceCharAux (c : Char) (acc : List Char) : List Char → Option (String × String)
  | [] => none
  | x :: rest =>
    if x = c then some (⟨acc.reverse⟩, ⟨rest⟩) else splitOnceCharAux c (x :: acc) rest

/-- Rust `str::split_once` with a `char` pattern: splits at the first
occurrence, or `none` when the character does not occur. -/
def splitOnceChar (s : String) (c : Char) : Option (String × String) :=
  splitOnceCharAux c [] s.data

/-- Kind of an `std::io::Error`, restricted to the kinds the server
distinguishes (`ErrorKind::PermissionDenied`, `ErrorKind::NotFound`, and the
catch-all arm). -/
inductive IoErrorKind
  | notFound
  | permissionDenied
  | other
deriving DecidableEq, Repr

/-- The `HttpMethod` enum of `src/server.rs` (only `Get`). -/
inductive HttpMethod
  | get
deriving DecidableEq, Repr

/-- The `HttpVersion` enum of `src/server.rs` (only `HTTP1_0`). -/
inductive HttpVersion
  | http1_0
deriving DecidableEq, Repr

/-- The `HttpStatus` enum of `src/server.rs`. -/
inductive HttpStatus
  | badRequest
  | forbidden
  | httpVersionNotSupported
  | internalServerError
  | methodNotAllowed
  | notFound
  | ok
deriving DecidableEq, Repr

/-- `HttpStatus::code` from `src/server.rs`. -/
def HttpStatus.code : HttpStatus → Nat
  | .badRequest => 400
  | .forbidden => 403
  | .httpVersionNotSupported => 505
  | .internalServerError => 500
  | .methodNotAllowed => 405
  | .notFound => 404
  | .ok => 200

/-- The `Display` impl for `HttpStatus` (reason phrases, including the typo
in the source for 500). -/
def HttpStatus.statusText : HttpStatus → String
  | .badRequest => "Bad Request"
  | .forbidden => "Forbidden"
  | .httpVersionNotSupported => "Http Version Not Supported"
  | .internalServerError => "Interal Server Errror"
  | .methodNotAllowed => "Method Not Allowed"
  | .notFound => "Not Found"
  | .ok => "Ok"

/-- The `Display` impl for `HttpMethod`. -/
def HttpMethod.displayStr : HttpMethod → String
  | .get => "GET"

/-- The derived `Debug` impl for `HttpMethod` (variant name). -/
def HttpMethod.debugStr : HttpMethod → String
  | .get => "Get"

/-- The `Display` impl for `HttpVersion`. -/
def HttpVersion.displayStr : HttpVersion → String
  | .http1_0 => "HTTP/1.0"

/-- The derived `Debug` impl for `HttpVersion` (variant name). -/
def HttpVersion.debugStr : HttpVersion → String
  | .http1_0 => "HTTP1_0"

/-- The `ParseRequestError` enum of `src/server.rs`.  The `IoError` payload
is abstracted to its error kind. -/
inductive ParseRequestError
  | unsupportedHttpVersion
  | malformedRequest (detail : String)
  | invalidMethod
  | invalidUri
  | ioError (k : IoErrorKind)
deriving DecidableEq, Repr

/-- The `impl From<ParseRequestError> for HttpStatus` of `src/server.rs`. -/
def ParseRequestError.toStatus : ParseRequestError → HttpStatus
  | .unsupportedHttpVersion => .httpVersionNotSupported
  | .malformedRequest _ => .badRequest
  | .invalidMethod => .badRequest
  | .invalidUri => .badRequest
  | .ioError _ => .internalServerError

/-- `impl FromStr for HttpMethod` of `src/server.rs`. -/
def parseHttpMethod (s : String) : Except ParseRequestError HttpMethod :=
  if s = "GET" then .ok .get else .error .invalidMethod

/-- `impl FromStr for HttpVersion` of `src/server.rs`. -/
def parseHttpVersion (s : String) : Except ParseRequestError HttpVersion :=
  if s = "HTTP/1.0" then .ok .http1_0 else .error .unsupportedHttpVersion

/-- `HttpHeaders`, a `HashMap<String, String>`, modelled as an association
list; see the insertion operation below. -/
abbrev HttpHeaders := List (String × String)

/-- `HashMap::insert`: replaces the value at an existing key, otherwise adds
the binding. -/
def insertH : HttpHeaders → String → String → HttpHeaders
  | [], k, v => [(k, v)]
  | (k2, v2) :: rest, k, v =>
    if k2 = k then (k, v) :: rest else (k2, v2) :: insertH rest k v

/-- `HashMap::get` on the header map. -/
def getH : HttpHeaders → String → Option String
  | [], _ => none
  | (k2, v2) :: rest, k => if k2 = k then some v2 else getH rest k

/-- `HashMap::contains_key` on the header map. -/
def containsKeyH (h : HttpHeaders) (k : String) : Bool :=
  (getH h k).isSome

/-- The `HttpRequest` struct of `src/server.rs`. -/
structure HttpRequest where
  method : HttpMethod
  uri : String
  version : HttpVersion
  headers : Option HttpHeaders
  body : Option String
deriving DecidableEq, Repr

/-- The `HttpResponse` struct of `src/server.rs`. -/
structure HttpResponse where
  version : HttpVersion
  status : HttpStatus
  headers : Option HttpHeaders
  body : Option String
deriving DecidableEq, Repr

/-- `HttpResponse::new` of `src/server.rs`: injects default `Content-Length`
and `Content-Type` headers when a body is present and the caller did not
set them, and fixes the version to `HTTP1_0`. -/
def HttpResponse.new (status : HttpStatus) (headers? : Option HttpHeaders)
    (body? : Option String) : HttpResponse :=
  let headers := headers?.getD []
  let headers :=
    match body? with
    | some body =>
      let headers :=
        if containsKeyH headers "Content-Length" then headers
        else insertH headers "Content-Length" (Nat.repr body.utf8ByteSize)
      if containsKeyH headers "Content-Type" then headers
      else insertH headers "Content-Type" "text/plain"
    | none => headers
  { version := .http1_0, status := status, headers := some headers, body := body? }

/-- The `Mime` enum of `src/server.rs`. -/
inductive Mime
  | gzip
  | json
  | jsonLd
  | binary
  | xml
  | zip
  | gif
  | jpeg
  | png
  | svg
  | iCalendar
  | css
  | csv
  | html
  | javaScriptModule
  | javaScript
  | markdown
  | plainText
deriving DecidableEq, Repr

/-- `Mime::as_str` of `src/server.rs`. -/
def Mime.asStr : Mime → String
  | .gzip => "application/gzip"
  | .json => "application/json"
  | .jsonLd => "application/ld+json"
  | .binary => "application/octet-stream"
  | .xml => "application/xml"
  | .zip => "application/zip"
  | .gif => "image/gif"
  | .jpeg => "image/jpeg"
  | .png => "image/png"
  | .svg => "image/svg+xml"
  | .iCalendar => "text/calendar"
  | .css => "text/css"
  | .csv => "text/csv"
  | .html => "text/html"
  | .javaScriptModule => "text/javascript"
  | .javaScript => "text/javascript"
  | .markdown => "text/markdown"
  | .plainText => "text/plain"

/-- `impl FromStr for Mime` of `src/server.rs`, as the `Option` the caller
obtains through `.parse().ok()`. -/
def Mime.fromStr? (s : String) : Option Mime :=
  if s = "gz" then some .gzip
  else if s = "json" then some .json
  else if s = "jsonld" then some .jsonLd
  else if s = "bin" then some .binary
  else if s = "xml" then some .xml
  else if s = "zip" then some .zip
  else if s = "gif" then some .gif
  else if s = "jpeg" ∨ s = "jpg" then some .jpeg
  else if s = "png" then some .png
  else if s = "svg" then some .svg
  else if s = "ics" then some .iCalendar
  else if s = "css" then some .css
  else if s = "csv" then some .csv
  else if s = "html" then some .html
  else if s = "mjs" then some .javaScriptModule
  else if s = "js" then some .javaScript
  else if s = "md" then some .markdown
  else if s = "txt" then some .plainText
  else none

/-- Entry of the modelled filesystem: a regular file with its contents, or a
directory. -/
inductive FsEntry
  | file (content : String)
  | dir
deriving DecidableEq, Repr

/-- A finite, symlink-free filesystem: association list from canonical
absolute paths (component lists containing no `..`, `.` or empty segments)
to entries. -/
abbrev Fs := List (List String × FsEntry)

/-- Lookup of the entry stored at a path. -/
def Fs.kindOf : Fs → List String → Option FsEntry
  | [], _ => none
  | (q, e) :: rest, p => if q = p then some e else Fs.kindOf rest p

/-- `Path::is_file` against the modelled filesystem. -/
def Fs.isFile (fs : Fs) (p : List String) : Bool :=
  match fs.kindOf p with
  | some (.file _) => true
  | _ => false

/-- `Path::is_dir` against the modelled filesystem. -/
def Fs.isDir (fs : Fs) (p : List String) : Bool :=
  match fs.kindOf p with
  | some .dir => true
  | _ => false

/-- `fs::read_to_string` against the modelled filesystem: succeeds exactly
on regular files (contents are modelled as valid UTF-8). -/
def Fs.readToString (fs : Fs) (p : List String) : Option String :=
  match fs.kindOf p with
  | some (.file c) => some c
  | _ => none

/-- Textual path normalization: resolves `..` against the parent, skips `.`
and empty segments.  On a symlink-free filesystem this is the component
resolution performed by `Path::canonicalize`. -/
def normSegs (acc : List String) : List String → List String
  | [] => acc
  | seg :: rest =>
    if seg = ".." then normSegs acc.dropLast rest
    else if seg = "." ∨ seg = "" then normSegs acc rest
    else normSegs (acc ++ [seg]) rest

/-- `Path::canonicalize` against the modelled (symlink-free) filesystem:
textual resolution followed by an existence check; a path whose resolution
does not exist fails with `ErrorKind::NotFound`. -/
def Fs.canonicalize (fs : Fs) (p : List String) : Except IoErrorKind (List String) :=
  let n := normSegs [] p
  if (fs.kindOf n).isSome then .ok n else .error .notFound

/-- Components contributed by a relative path string in `Path::join`: split
on `/`, dropping empty and `.` segments as `Path::components` does. -/
def splitComponents (s : String) : List String :=
  ((splitChars (fun c => c = '/') s.data).map (fun l => ⟨l⟩)).filter
    (fun t => t ≠ "" ∧ t ≠ ".")

/-- `HttpFileServer::resolve_uri` of `src/server.rs`, against the modelled
filesystem.  `root` is the component list of the root directory path. -/
def resolve_uri (fs : Fs) (target : String) (root : List String) :
    Except IoErrorKind (List String) :=
  let path := trimTarget target
  let index := "index.html"
  if path = "" then .ok (root ++ [index])
  else
    let full_path := root ++ splitComponents path
    match fs.canonicalize full_path with
    | .error e => .error e
    | .ok canonical_full =>
      match fs.canonicalize root with
      | .error e => .error e
      | .ok canonical_root =>
        if ¬ (canonical_root.isPrefixOf canonical_full) then
          .error .permissionDenied
        else if fs.isFile canonical_full then .ok canonical_full
        else if ¬ fs.isDir canonical_full then .error .notFound
        else
          let index_path := canonical_full ++ [index]
          if fs.isFile index_path then .ok index_path else .error .notFound

/-- Rust `Path::extension` on a file name: the portion after the last dot,
where a dot in leading position does not count as a separator. -/
def rustExtension (name : String) : Option String :=
  match name.data with
  | [] => none
  | _ :: rest =>
    if rest.contains '.' then
      some ⟨(rest.reverse.takeWhile (fun c => c ≠ '.')).reverse⟩
    else none

/-- `Path::extension` on a component-list path. -/
def pathExtension (p : List String) : Option String :=
  p.getLast?.bind rustExtension

/-- Mapping of `resolve_uri` failures to statuses, the `match err.kind()`
arm of `HttpFileServer::process_request`. -/
def statusOfIoError : IoErrorKind → HttpStatus
  | .permissionDenied => .forbidden
  | .notFound => .notFound
  | .other => .internalServerError

/-- `HttpFileServer::process_request` of `src/server.rs`. -/
def process_request (fs : Fs) (root : List String) (request : HttpRequest) :
    HttpResponse :=
  if request.method ≠ HttpMethod.get then
    HttpResponse.new .methodNotAllowed none none
  else if request.version ≠ HttpVersion.http1_0 then
    HttpResponse.new .httpVersionNotSupported none none
  else
    match resolve_uri fs request.uri root with
    | .error err => HttpResponse.new (statusOfIoError err) none none
    | .ok path =>
      match fs.readToString path with
      | none => HttpResponse.new .internalServerError none none
      | some response_body =>
        let mime_type_str :=
          (((pathExtension path).bind Mime.fromStr?).getD Mime.binary).asStr
        let headers := insertH [] "Content-Type" mime_type_str
        HttpResponse.new .ok (some headers) (some response_body)

/-- One item yielded by `BufReader::lines` on the connection: a complete
line with terminators stripped, or a read failure of the given kind. -/
inductive StreamItem
  | line (s : String)
  | ioErr (k : IoErrorKind)
deriving DecidableEq, Repr

/-- Loop body of `HttpRequest::parse_headers`: consume header lines until an
empty line or the end of the stream, folding insertions left to right so
later duplicate field names overwrite earlier ones. -/
def parse_headers_from (headers : HttpHeaders) :
    List StreamItem → Except ParseRequestError HttpHeaders
  | [] => .ok headers
  | .ioErr k :: _ => .error (.ioError k)
  | .line l :: rest =>
    if l = "" then .ok headers
    else
      match splitOnceChar l ':' with
      | none => .error (.malformedRequest ("Malformed header: " ++ l))
      | some (f1, f2) =>
        parse_headers_from
          (insertH headers (rustTrim (rustTrim f1)) (rustTrim (rustTrim f2))) rest

/-- `HttpRequest::parse_headers` of `src/server.rs`. -/
def parse_headers (lines : List StreamItem) : Except ParseRequestError HttpHeaders :=
  parse_headers_from [] lines

/-- `HttpRequest::from_stream` of `src/server.rs`.  Note the order: the
request line is split into exactly three tokens, then the header block is
parsed, and only then are the method and version tokens parsed. -/
def from_stream (stream : List StreamItem) :
    Except ParseRequestError (Option HttpRequest) :=
  match stream with
  | [] => .ok none
  | .ioErr k :: _ => .error (.ioError k)
  | .line request_line :: rest =>
    match splitWhitespace request_line with
    | [method_str, target, version_str] =>
      match parse_headers rest with
      | .error e => .error e
      | .ok headers =>
        match parseHttpMethod method_str with
        | .error e => .error e
        | .ok method =>
          match parseHttpVersion version_str with
          | .error e => .error e
          | .ok version =>
            .ok (some { method := method, uri := target, version := version,
                        headers := some headers, body := none })
    | _ => .error (.malformedRequest ("Malformed request line: " ++ request_line))

/-- Observable outcome of `HttpFileServer::handle_connection` on one
connection: return without writing anything, or write the given response. -/
inductive HandlerAction
  | drop
  | respond (r : HttpResponse)
deriving DecidableEq, Repr

/-- `HttpFileServer::handle_connection` of `src/server.rs`, as the decision
which bytes (if any) are written back. -/
def handle_connection (fs : Fs) (root : List String) (stream : List StreamItem) :
    HandlerAction :=
  match from_stream stream with
  | .ok (some request) => .respond (process_request fs root request)
  | .ok none => .drop
  | .error e => .respond (HttpResponse.new e.toStatus none none)

/-- Status line of the `Display` impl for `HttpResponse`:
`writeln!(f, "{} {} {}", version, code, status)`. -/
def statusLine (r : HttpResponse) : String :=
  r.version.displayStr ++ " " ++ Nat.repr r.status.code ++ " " ++ r.status.statusText

/-- The `Display` impl for `HttpResponse` of `src/server.rs`.  The `order`
parameter is the sequence in which the header `HashMap` yields its entries;
Rust leaves this order unspecified, so it is a parameter constrained (in the
theorems) to be a permutation of the stored entries. -/
def displayResponse (r : HttpResponse) (order : HttpHeaders) : String :=
  let body := r.body.getD ""
  statusLine r ++ "\n" ++
    (order.foldl (fun acc kv => acc ++ kv.1 ++ ": " ++ kv.2 ++ "\n") "") ++
    "\n" ++
    (if body = "" then "" else body ++ "\n")

/-- The header entries of a response (empty when the field is `None`). -/
def headersOf (r : HttpResponse) : HttpHeaders :=
  r.headers.getD []

/-- The `LogFormat::Combined` format string of `src/logger.rs`. -/
def combinedFormat (remote_addr remote_user time_local request_line : String)
    (status body_bytes_sent : Nat) (referer user_agent : String) : String :=
  remote_addr ++ " - " ++ remote_user ++ " [" ++ time_local ++ "] \"" ++
    request_line ++ "\" " ++ Nat.repr status ++ " " ++ Nat.repr body_bytes_sent ++
    " \"" ++ referer ++ "\" \"" ++ user_agent ++ "\""

/-- The quoted request-line field built in `DefaultLogger::write_request_log`:
`format!("{:?} {} {:?}", request.method, request.uri, request.version)`,
using the derived `Debug` renderings of the method and the version. -/
def logRequestLine (request : HttpRequest) : String :=
  request.method.debugStr ++ " " ++ request.uri ++ " " ++ request.version.debugStr

/-- `DefaultLogger::write_request_log` of `src/logger.rs`, as the line it
appends.  The wall-clock timestamp is a parameter. -/
def write_request_log_line (request : HttpRequest) (response : HttpResponse)
    (remote_addr time_local : String) : String :=
  let headers := request.headers.getD []
  let remote_user := "\"-\""
  let request_line := logRequestLine request
  let status := response.status.code
  let body_bytes_sent := (response.body.map String.utf8ByteSize).getD 0
  let referer := (getH headers "Referer").getD "-"
  let user_agent := (getH headers "User-Agent").getD "-"
  combinedFormat remote_addr remote_user time_local request_line status
    body_bytes_sent referer user_agent ++ "\n"

/-! ### Helper lemmas about the header map -/

theorem getH_insertH_self (h : HttpHeaders) (k v : String) :
    getH (insertH h k v) k = some v := by
  induction h with
  | nil => simp [insertH, getH]
  | cons kv rest ih =>
    obtain ⟨k2, v2⟩ := kv
    by_cases hk : k2 = k
    · simp [insertH, hk, getH]
    · simp [insertH, hk, getH, ih]

theorem getH_insertH_ne (h : HttpHeaders) (k k2 v : String) (hne : k2 ≠ k) :
    getH (insertH h k v) k2 = getH h k2 := by
  induction h with
  | nil => simp [insertH, getH, Ne.symm hne]
  | cons kv rest ih =>
    obtain ⟨k1, v1⟩ := kv
    by_cases hk : k1 = k
    · subst hk
      simp [insertH, getH, Ne.symm hne]
    · simp [insertH, hk, getH, ih]

theorem containsKeyH_insertH_ne (h : HttpHeaders) (k k2 v : String) (hne : k2 ≠ k) :
    containsKeyH (insertH h k v) k2 = containsKeyH h k2 := by
  simp [containsKeyH, getH_insertH_ne h k k2 v hne]

/-! ### Helper lemmas about the modelled filesystem -/

theorem readToString_some_isFile (fs : Fs) (p : List String) (c : String)
    (h : fs.readToString p = some c) : fs.isFile p = true := by
  cases hk : fs.kindOf p with
  | none => simp [Fs.readToString, hk] at h
  | some e =>
    cases e with
    | file c2 => simp [Fs.isFile, hk]
    | dir => simp [Fs.readToString, hk] at h

theorem isFile_false_read_none (fs : Fs) (p : List String)
    (h : fs.isFile p = false) : fs.readToString p = none := by
  cases hk : fs.kindOf p with
  | none => simp [Fs.readToString, hk]
  | some e =>
    cases e with
    | file c => simp [Fs.isFile, hk] at h
    | dir => simp [Fs.readToString, hk]

theorem kindOf_dir_isFile_false (fs : Fs) (p : List String)
    (h : fs.kindOf p = some .dir) : fs.isFile p = false := by
  simp [Fs.isFile, h]

theorem kindOf_dir_isDir_true (fs : Fs) (p : List String)
    (h : fs.kindOf p = some .dir) : fs.isDir p = true := by
  simp [Fs.isDir, h]

/-! ### C5 -/

/-- C5: the mapping from `ParseRequestError` to `HttpStatus` is total and
deterministic: each of the five error kinds maps to exactly one status
(505, 400, 400, 400, 500 respectively), independently of any payload, and
the result is always one of the well-formed error statuses, so a raw I/O
error is never put on the wire. -/
theorem C5_error_status_mapping_total :
    ParseRequestError.toStatus .unsupportedHttpVersion = .httpVersionNotSupported ∧
    (∀ detail : String,
      ParseRequestError.toStatus (.malformedRequest detail) = .badRequest) ∧
    ParseRequestError.toStatus .invalidMethod = .badRequest ∧
    ParseRequestError.toStatus .invalidUri = .badRequest ∧
    (∀ k : IoErrorKind,
      ParseRequestError.toStatus (.ioError k) = .internalServerError) ∧
    (∀ e : ParseRequestError,
      ParseRequestError.toStatus e = .badRequest ∨
        ParseRequestError.toStatus e = .internalServerError ∨
        ParseRequestError.toStatus e = .httpVersionNotSupported) := by
  refine ⟨rfl, fun _ => rfl, rfl, rfl, fun _ => rfl, fun e => ?_⟩
  cases e <;> simp [ParseRequestError.toStatus]

/-! ### C4 -/

/-- C4 counterexample: when parsing fails with `IoError`, the handler does
not drop the connection silently; it writes a 500 response, contradicting
the claim that `IoError` is treated like the no-request signal. -/
theorem C4_counterexample :
    handle_connection [] [] [StreamItem.ioErr IoErrorKind.other] =
      HandlerAction.respond (HttpResponse.new .internalServerError none none) ∧
    HandlerAction.respond (HttpResponse.new .internalServerError none none) ≠
      HandlerAction.drop := by
  exact ⟨rfl, by decide⟩

/-- C4 (amended): only the clean no-request signal (`Ok(None)`) makes the
handler drop the connection with nothing written; every parse error,
including `IoError`, results in an error response built from the status
mapping and written to the stream. -/
theorem C4_amended (fs : Fs) (root : List String) (stream : List StreamItem) :
    (from_stream stream = .ok none → handle_connection fs root stream = .drop) ∧
    (∀ e : ParseRequestError, from_stream stream = .error e →
      handle_connection fs root stream =
        .respond (HttpResponse.new e.toStatus none none)) := by
  constructor
  · intro h
    unfold handle_connection
    rw [h]
  · intro e h
    unfold handle_connection
    rw [h]

/-- Witness for C4 (amended) at concrete streams: the empty stream is
dropped, an I/O failure gets a response. -/
theorem C4_amended_witness :
    handle_connection [] [] [] = HandlerAction.drop ∧
    handle_connection [] [] [StreamItem.ioErr IoErrorKind.other] =
      HandlerAction.respond
        (HttpResponse.new (ParseRequestError.ioError IoErrorKind.other).toStatus
          none none) :=
  ⟨(C4_amended [] [] []).1 rfl, (C4_amended [] [] [StreamItem.ioErr .other]).2 _ rfl⟩

/-! ### C2 -/

/-- C2 counterexample: the request line `POST / HTTP/1.0` is answered with
400 Bad Request, not 405 Method Not Allowed: the parser rejects every
non-GET token as the parse failure `InvalidMethod`. -/
theorem C2_counterexample :
    handle_connection [] [] [StreamItem.line "POST / HTTP/1.0", StreamItem.line ""] =
      HandlerAction.respond (HttpResponse.new .badRequest none none) ∧
    HttpStatus.badRequest.code = 400 ∧
    HttpStatus.badRequest ≠ HttpStatus.methodNotAllowed := by
  refine ⟨by decide, rfl, by decide⟩

/-- C2 (amended): for every request whose method token is any token other
than `GET`, the parser fails with `InvalidMethod` and the server responds
400 Bad Request; the parsed method type has only the GET value, so the
handler's 405 branch is never reached by a non-GET token. -/
theorem C2_amended (fs : Fs) (root : List String) (l : String)
    (rest : List StreamItem) (m t v : String) (hs : HttpHeaders)
    (hsplit : splitWhitespace l = [m, t, v]) (hm : m ≠ "GET")
    (hh : parse_headers rest = .ok hs) :
    handle_connection fs root (StreamItem.line l :: rest) =
      HandlerAction.respond (HttpResponse.new .badRequest none none) := by
  have hfs : from_stream (StreamItem.line l :: rest) = .error .invalidMethod := by
    simp only [from_stream, hsplit, hh, parseHttpMethod, if_neg hm]
  simp only [handle_connection, hfs, ParseRequestError.toStatus]

/-- Witness for C2 (amended) at the concrete `POST / HTTP/1.0` request. -/
theorem C2_amended_witness :
    splitWhitespace "POST / HTTP/1.0" = ["POST", "/", "HTTP/1.0"] ∧
    handle_connection [] [] [StreamItem.line "POST / HTTP/1.0", StreamItem.line ""] =
      HandlerAction.respond (HttpResponse.new .badRequest none none) :=
  ⟨by decide,
   C2_amended [] [] "POST / HTTP/1.0" [StreamItem.line ""] "POST" "/" "HTTP/1.0" []
     (by decide) (by decide) rfl⟩

/-! ### C6 -/

theorem head?_dropWhile_eq_ne (c : Char) (l : List Char) (x : Char)
    (h : (l.dropWhile (fun y => y = c)).head? = some x) : x ≠ c := by
  induction l with
  | nil => simp at h
  | cons a l ih =>
    rw [List.dropWhile_cons] at h
    by_cases ha : a = c
    · simp [ha] at h
      exact ih h
    · simp [ha] at h
      subst h
      exact ha

theorem dropWhile_append_single (p : Char → Bool) (A : List Char) (c : Char)
    (hc : p c = true) :
    List.dropWhile p (A ++ [c]) =
      if List.dropWhile p A = [] then [] else List.dropWhile p A ++ [c] := by
  induction A with
  | nil => simp [List.dropWhile, hc]
  | cons a A ih =>
    rw [List.cons_append, List.dropWhile_cons, List.dropWhile_cons]
    by_cases ha : p a
    · simp [ha, ih]
    · simp [ha]

theorem trimStart_extra_slash (s : String) :
    trimStartMatchesChar ("/" ++ s) '/' = trimStartMatchesChar s '/' := rfl

theorem trimTarget_extra_leading (s : String) :
    trimTarget ("/" ++ s) = trimTarget s := by
  unfold trimTarget
  rw [trimStart_extra_slash]

theorem trimTarget_extra_trailing (s : String) :
    trimTarget (s ++ "/") = trimTarget s := by
  unfold trimTarget trimStartMatchesChar trimEndMatchesChar
  congr 1
  have h1 : (s ++ "/").data = s.data ++ ['/'] := by
    rw [String.data_append]
  rw [h1, dropWhile_append_single _ _ _ (by simp)]
  by_cases h : List.dropWhile (fun y => y = '/') s.data = []
  · simp [h]
  · rw [if_neg h]
    simp [List.reverse_append, List.dropWhile_cons]

theorem trimTarget_head_ne_slash (s : String) (x : Char)
    (h : (trimTarget s).data.head? = some x) : x ≠ '/' := by
  have hd : (trimTarget s).data =
      ((s.data.dropWhile (fun y => y = '/')).reverse.dropWhile
        (fun y => y = '/')).reverse := rfl
  rw [hd] at h
  obtain ⟨t, ht⟩ :=
    List.dropWhile_suffix (l := (s.data.dropWhile (fun y => y = '/')).reverse)
      (fun y => y = '/')
  have hsplit : s.data.dropWhile (fun y => y = '/') =
      ((s.data.dropWhile (fun y => y = '/')).reverse.dropWhile
        (fun y => y = '/')).reverse ++ t.reverse := by
    have h2 := congrArg List.reverse ht
    simpa [List.reverse_append] using h2.symm
  cases hR : ((s.data.dropWhile (fun y => y = '/')).reverse.dropWhile
      (fun y => y = '/')).reverse with
  | nil => rw [hR] at h; cases h
  | cons y R =>
    rw [hR] at h
    simp at h
    have hBhead : (s.data.dropWhile (fun y => y = '/')).head? = some y := by
      rw [hsplit, hR]
      rfl
    have hy := head?_dropWhile_eq_ne '/' s.data y hBhead
    exact h ▸ hy

theorem trimTarget_getLast_ne_slash (s : String) (x : Char)
    (h : (trimTarget s).data.getLast? = some x) : x ≠ '/' := by
  have hd : (trimTarget s).data =
      ((s.data.dropWhile (fun y => y = '/')).reverse.dropWhile
        (fun y => y = '/')).reverse := rfl
  rw [hd, List.getLast?_reverse] at h
  exact head?_dropWhile_eq_ne '/' _ x h

/-- C6 counterexample: on the target `//x//`, which begins and ends with
two slashes, the trim of `resolve_uri` removes all of them (yielding `x`),
not exactly one each (which would yield `/x/`): extra slashes do not
remain. -/
theorem C6_counterexample :
    trimTarget "//x//" = "x" ∧ ("x" : String) ≠ "/x/" :=
  ⟨rfl, by decide⟩

/-- C6 (amended): the first step of the resolver strips all leading and all
trailing slashes (a recursive trim): prepending or appending one more slash
does not change the result, and the trimmed target neither starts nor ends
with a slash. -/
theorem C6_amended (s : String) :
    trimTarget ("/" ++ s) = trimTarget s ∧
    trimTarget (s ++ "/") = trimTarget s ∧
    (∀ x, (trimTarget s).data.head? = some x → x ≠ '/') ∧
    (∀ x, (trimTarget s).data.getLast? = some x → x ≠ '/') :=
  ⟨trimTarget_extra_leading s, trimTarget_extra_trailing s,
   fun x h => trimTarget_head_ne_slash s x h,
   fun x h => trimTarget_getLast_ne_slash s x h⟩

/-- Witness for C6 (amended) at concrete targets. -/
theorem C6_amended_witness :
    trimTarget ("/" ++ "/x") = trimTarget "/x" ∧
    (trimTarget "//x//").data.head? = some 'x' ∧ ('x' : Char) ≠ '/' :=
  ⟨(C6_amended "/x").1, by decide, (C6_amended "//x//").2.2.1 'x' (by decide)⟩

/-! ### C1 -/

/-- C1 counterexample: root `srv`, target `/../secret`, where the escaped
file `secret` does not exist.  The canonicalized candidate (`secret`) lies
outside the canonical root, yet `resolve_uri` returns `NotFound`, not
`PermissionDenied`: canonicalization fails first, so the outcome differs
from the case where the escaped target exists, revealing existence. -/
theorem C1_counterexample :
    normSegs [] (["srv"] ++ splitComponents (trimTarget "/../secret")) = ["secret"] ∧
    (["srv"] : List String).isPrefixOf ["secret"] = false ∧
    resolve_uri [(["srv"], FsEntry.dir)] "/../secret" ["srv"] = .error .notFound ∧
    IoErrorKind.notFound ≠ IoErrorKind.permissionDenied := by
  refine ⟨by decide, by decide, by decide, by decide⟩

/-- C1 (amended): whenever the candidate path canonicalizes successfully to
a path not prefixed by the canonical root, `resolve_uri` returns
`PermissionDenied` (403), regardless of the kind of entry there; but when
the escaped target does not exist, canonicalization fails and the resolver
returns `NotFound` instead, so existence outside the root is revealed. -/
theorem C1_amended (fs : Fs) (target : String) (root cf cr : List String)
    (h0 : trimTarget target ≠ "")
    (h1 : fs.canonicalize (root ++ splitComponents (trimTarget target)) = .ok cf)
    (h2 : fs.canonicalize root = .ok cr)
    (h3 : cr.isPrefixOf cf = false) :
    resolve_uri fs target root = .error .permissionDenied := by
  unfold resolve_uri
  simp only [if_neg h0, h1, h2, h3]
  simp

/-- Witness for C1 (amended): the escaped target exists, so canonicalization
succeeds and the resolver rejects with `PermissionDenied`. -/
theorem C1_amended_witness :
    Fs.canonicalize [(["srv"], FsEntry.dir), (["secret"], FsEntry.file "top")]
      (["srv"] ++ splitComponents (trimTarget "/../secret")) = .ok ["secret"] ∧
    resolve_uri [(["srv"], FsEntry.dir), (["secret"], FsEntry.file "top")]
      "/../secret" ["srv"] = .error .permissionDenied :=
  ⟨by decide,
   C1_amended [(["srv"], FsEntry.dir), (["secret"], FsEntry.file "top")]
     "/../secret" ["srv"] ["secret"] ["srv"]
     (by decide) (by decide) (by decide) (by decide)⟩

/-! ### C3 -/

theorem resolve_uri_dir (fs : Fs) (target : String) (root d cr : List String)
    (h0 : trimTarget target ≠ "")
    (h1 : fs.canonicalize (root ++ splitComponents (trimTarget target)) = .ok d)
    (h2 : fs.canonicalize root = .ok cr)
    (h3 : cr.isPrefixOf d = true)
    (hd : fs.kindOf d = some .dir) :
    resolve_uri fs target root =
      (if fs.isFile (d ++ ["index.html"]) then .ok (d ++ ["index.html"])
       else .error .notFound) := by
  unfold resolve_uri
  simp only [if_neg h0, h1, h2, h3, kindOf_dir_isFile_false fs d hd,
             kindOf_dir_isDir_true fs d hd]
  simp

theorem process_request_ok (fs : Fs) (root : List String) (req : HttpRequest)
    (p : List String) (c : String)
    (hm : req.method = .get) (hv : req.version = .http1_0)
    (hres : resolve_uri fs req.uri root = .ok p)
    (hread : fs.readToString p = some c) :
    (process_request fs root req).status = .ok ∧
    (process_request fs root req).body = some c := by
  unfold process_request
  simp only [hm, hv, hres, hread]
  constructor <;> simp [HttpResponse.new]

theorem process_request_err (fs : Fs) (root : List String) (req : HttpRequest)
    (err : IoErrorKind)
    (hm : req.method = .get) (hv : req.version = .http1_0)
    (hres : resolve_uri fs req.uri root = .error err) :
    process_request fs root req = HttpResponse.new (statusOfIoError err) none none := by
  unfold process_request
  simp [hm, hv, hres]

theorem process_request_read_fail (fs : Fs) (root : List String) (req : HttpRequest)
    (p : List String)
    (hm : req.method = .get) (hv : req.version = .http1_0)
    (hres : resolve_uri fs req.uri root = .ok p)
    (hread : fs.readToString p = none) :
    process_request fs root req = HttpResponse.new .internalServerError none none := by
  unfold process_request
  simp [hm, hv, hres, hread]

/-- C3 counterexample: a GET for the root of a directory that lacks
`index.html`.  The resolver does not return `NotFound`: it returns the
unchecked path `root/index.html`, reading it fails, and the server answers
500 Internal Server Error, not 404. -/
theorem C3_counterexample :
    resolve_uri [(["srv"], FsEntry.dir)] "/" ["srv"] = .ok ["srv", "index.html"] ∧
    process_request [(["srv"], FsEntry.dir)] ["srv"]
        { method := .get, uri := "/", version := .http1_0,
          headers := some [], body := none } =
      HttpResponse.new .internalServerError none none ∧
    HttpStatus.internalServerError ≠ HttpStatus.notFound := by
  refine ⟨by decide, by decide, by decide⟩

/-- C3 (amended): for a GET/HTTP-1.0 request whose nonempty trimmed target
canonicalizes to a directory inside the root, the server returns 200 with
the contents of `index.html` when that file is present, and 404 when it is
absent.  For the empty target, the resolver returns the unchecked path
`root/index.html`: when that file is present the server returns 200 with
its contents, but when it is absent the file read fails and the server
returns 500, not 404. -/
theorem C3_amended (fs : Fs) (root : List String) (req : HttpRequest)
    (c : String) (d cr : List String)
    (hm : req.method = .get) (hv : req.version = .http1_0) :
    (trimTarget req.uri = "" →
      (fs.readToString (root ++ ["index.html"]) = some c →
        (process_request fs root req).status = .ok ∧
        (process_request fs root req).body = some c) ∧
      (fs.readToString (root ++ ["index.html"]) = none →
        process_request fs root req =
          HttpResponse.new .internalServerError none none)) ∧
    (trimTarget req.uri ≠ "" →
      fs.canonicalize (root ++ splitComponents (trimTarget req.uri)) = .ok d →
      fs.canonicalize root = .ok cr →
      cr.isPrefixOf d = true →
      fs.kindOf d = some .dir →
      (fs.readToString (d ++ ["index.html"]) = some c →
        (process_request fs root req).status = .ok ∧
        (process_request fs root req).body = some c) ∧
      (fs.isFile (d ++ ["index.html"]) = false →
        process_request fs root req = HttpResponse.new .notFound none none)) := by
  constructor
  · intro he
    have hres : resolve_uri fs req.uri root = .ok (root ++ ["index.html"]) := by
      unfold resolve_uri
      simp [he]
    exact ⟨fun hr => process_request_ok fs root req _ c hm hv hres hr,
           fun hr => process_request_read_fail fs root req _ hm hv hres hr⟩
  · intro h0 h1 h2 h3 hd
    have hbase := resolve_uri_dir fs req.uri root d cr h0 h1 h2 h3 hd
    constructor
    · intro hr
      have hfile : fs.isFile (d ++ ["index.html"]) = true :=
        readToString_some_isFile fs _ c hr
      have hres : resolve_uri fs req.uri root = .ok (d ++ ["index.html"]) := by
        rw [hbase, if_pos hfile]
      exact process_request_ok fs root req _ c hm hv hres hr
    · intro hfalse
      have hres : resolve_uri fs req.uri root = .error .notFound := by
        rw [hbase, if_neg (by simp [hfalse])]
      exact process_request_err fs root req .notFound hm hv hres

/-- Witness for C3 (amended): root with `index.html` containing `hello`;
the empty target is served with 200 and body `hello`. -/
theorem C3_amended_witness :
    (process_request [(["srv"], FsEntry.dir), (["srv", "index.html"], FsEntry.file "hello")]
        ["srv"] { method := .get, uri := "/", version := .http1_0,
                  headers := some [], body := none }).status = .ok ∧
    (process_request [(["srv"], FsEntry.dir), (["srv", "index.html"], FsEntry.file "hello")]
        ["srv"] { method := .get, uri := "/", version := .http1_0,
                  headers := some [], body := none }).body = some "hello" :=
  (C3_amended
      [(["srv"], FsEntry.dir), (["srv", "index.html"], FsEntry.file "hello")]
      ["srv"]
      { method := .get, uri := "/", version := .http1_0,
        headers := some [], body := none }
      "hello" [] [] rfl rfl).1 (by decide) |>.1 (by decide)

/-! ### C8 -/

theorem getH_preserve_step (h : HttpHeaders) (k key val v2 : String)
    (hk : getH h k = some v2) :
    getH (if containsKeyH h key then h else insertH h key val) k = some v2 := by
  by_cases hc : containsKeyH h key
  · simp [hc, hk]
  · rw [if_neg hc]
    by_cases hkk : k = key
    · subst hkk
      exact absurd (by simp [containsKeyH, hk]) hc
    · rw [getH_insertH_ne h key k val hkk]
      exact hk

/-- C8: the Response Builder fills in defaults without overwriting the
caller: when a body is present and the caller did not set Content-Length,
the headers contain Content-Length equal to the body byte length; likewise
Content-Type defaults to text/plain; caller-supplied header values are
preserved; and the version is always the fixed HTTP/1.0 the server
speaks. -/
theorem C8_response_builder_defaults (status : HttpStatus)
    (headers? : Option HttpHeaders) (body : String) :
    (containsKeyH (headers?.getD []) "Content-Length" = false →
      getH (headersOf (HttpResponse.new status headers? (some body)))
          "Content-Length" = some (Nat.repr body.utf8ByteSize)) ∧
    (containsKeyH (headers?.getD []) "Content-Type" = false →
      getH (headersOf (HttpResponse.new status headers? (some body)))
          "Content-Type" = some "text/plain") ∧
    (∀ k v2, getH (headers?.getD []) k = some v2 →
      getH (headersOf (HttpResponse.new status headers? (some body))) k = some v2) ∧
    (∀ b? : Option String, (HttpResponse.new status headers? b?).version = .http1_0) ∧
    (HttpResponse.new status headers? (some body)).body = some body := by
  have hH : headersOf (HttpResponse.new status headers? (some body)) =
      (if containsKeyH
          (if containsKeyH (headers?.getD []) "Content-Length" then headers?.getD []
           else insertH (headers?.getD []) "Content-Length"
             (Nat.repr body.utf8ByteSize))
          "Content-Type"
        then
          (if containsKeyH (headers?.getD []) "Content-Length" then headers?.getD []
           else insertH (headers?.getD []) "Content-Length"
             (Nat.repr body.utf8ByteSize))
        else
          insertH
            (if containsKeyH (headers?.getD []) "Content-Length" then headers?.getD []
             else insertH (headers?.getD []) "Content-Length"
               (Nat.repr body.utf8ByteSize))
            "Content-Type" "text/plain") := rfl
  refine ⟨?_, ?_, ?_, fun b? => rfl, rfl⟩
  · intro hcl
    have hstep1 : (if containsKeyH (headers?.getD []) "Content-Length" = true
        then headers?.getD []
        else insertH (headers?.getD []) "Content-Length"
          (Nat.repr body.utf8ByteSize)) =
        insertH (headers?.getD []) "Content-Length" (Nat.repr body.utf8ByteSize) := by
      rw [if_neg]
      simp [hcl]
    rw [hH, hstep1]
    have hself : getH (insertH (headers?.getD []) "Content-Length"
        (Nat.repr body.utf8ByteSize)) "Content-Length" =
        some (Nat.repr body.utf8ByteSize) := getH_insertH_self _ _ _
    by_cases hct : containsKeyH (insertH (headers?.getD []) "Content-Length"
        (Nat.repr body.utf8ByteSize)) "Content-Type"
    · rw [if_pos hct]
      exact hself
    · rw [if_neg hct,
          getH_insertH_ne _ "Content-Type" "Content-Length" "text/plain" (by decide)]
      exact hself
  · intro hct
    by_cases hcl : containsKeyH (headers?.getD []) "Content-Length"
    · have hstep1 : (if containsKeyH (headers?.getD []) "Content-Length" = true
          then headers?.getD []
          else insertH (headers?.getD []) "Content-Length"
            (Nat.repr body.utf8ByteSize)) = headers?.getD [] := if_pos hcl
      rw [hH, hstep1, if_neg (by simp [hct])]
      exact getH_insertH_self _ _ _
    · have hstep1 : (if containsKeyH (headers?.getD []) "Content-Length" = true
          then headers?.getD []
          else insertH (headers?.getD []) "Content-Length"
            (Nat.repr body.utf8ByteSize)) =
          insertH (headers?.getD []) "Content-Length"
            (Nat.repr body.utf8ByteSize) := if_neg hcl
      have hct2 : containsKeyH (insertH (headers?.getD []) "Content-Length"
          (Nat.repr body.utf8ByteSize)) "Content-Type" = false := by
        rw [containsKeyH_insertH_ne _ _ _ _ (by decide)]
        exact hct
      rw [hH, hstep1, if_neg (by simp [hct2])]
      exact getH_insertH_self _ _ _
  · intro k v2 hk
    rw [hH]
    exact getH_preserve_step _ k "Content-Type" "text/plain" v2
      (getH_preserve_step (headers?.getD []) k "Content-Length"
        (Nat.repr body.utf8ByteSize) v2 hk)

/-- Witness for C8 at a concrete build: no caller headers, body `hi`. -/
theorem C8_response_builder_defaults_witness :
    containsKeyH ((none : Option HttpHeaders).getD []) "Content-Length" = false ∧
    getH (headersOf (HttpResponse.new .ok none (some "hi"))) "Content-Length" =
      some (Nat.repr ("hi" : String).utf8ByteSize) ∧
    getH (headersOf (HttpResponse.new .ok none (some "hi"))) "Content-Type" =
      some "text/plain" :=
  ⟨rfl, (C8_response_builder_defaults .ok none "hi").1 rfl,
   (C8_response_builder_defaults .ok none "hi").2.1 rfl⟩

/-! ### C7 -/

/-- C7 counterexample: a response holding two headers.  Both orders are
valid iteration orders of the same header map (permutations of its
entries), yet the two serializations differ, so the header-line order is
not deterministic for equal responses. -/
theorem C7_counterexample :
    List.Perm [("A", "1"), ("B", "2")]
      (headersOf { version := .http1_0, status := .ok,
                   headers := some [("A", "1"), ("B", "2")], body := none }) ∧
    List.Perm [("B", "2"), ("A", "1")]
      (headersOf { version := .http1_0, status := .ok,
                   headers := some [("A", "1"), ("B", "2")], body := none }) ∧
    displayResponse
        { version := .http1_0, status := .ok,
          headers := some [("A", "1"), ("B", "2")], body := none }
        [("A", "1"), ("B", "2")] ≠
      displayResponse
        { version := .http1_0, status := .ok,
          headers := some [("A", "1"), ("B", "2")], body := none }
        [("B", "2"), ("A", "1")] := by
  refine ⟨by decide, by decide, by decide⟩

/-- C7 (amended): serialization is deterministic only given the header
iteration order, which Rust leaves unspecified for a `HashMap`.  When the
response holds at most one header, any two valid iteration orders yield
identical bytes; with more headers this can fail: the counterexample above
exhibits a two-header response whose two iteration orders serialize to
different byte sequences, so the header-line order of the serialized
response is not deterministic in general. -/
theorem C7_amended (r : HttpResponse) (ord1 ord2 : HttpHeaders)
    (h1 : List.Perm ord1 (headersOf r)) (h2 : List.Perm ord2 (headersOf r))
    (hlen : (headersOf r).length ≤ 1) :
    displayResponse r ord1 = displayResponse r ord2 := by
  have e : ord1 = ord2 := by
    cases hl : headersOf r with
    | nil =>
      rw [hl] at h1 h2
      rw [List.perm_nil.mp h1, List.perm_nil.mp h2]
    | cons a tl =>
      cases tl with
      | nil =>
        rw [hl] at h1 h2
        rw [List.perm_singleton.mp h1, List.perm_singleton.mp h2]
      | cons b tl2 =>
        rw [hl] at hlen
        simp at hlen
  rw [e]

/-- Witness for C7 (amended) on a one-header response. -/
theorem C7_amended_witness :
    displayResponse
        { version := .http1_0, status := .ok,
          headers := some [("A", "1")], body := none } [("A", "1")] =
      displayResponse
        { version := .http1_0, status := .ok,
          headers := some [("A", "1")], body := none } [("A", "1")] :=
  C7_amended _ [("A", "1")] [("A", "1")] (by decide) (by decide) (by decide)

/-! ### C9 -/

/-- C9 counterexample: the quoted request-line field of the access log is
built with the Debug renderings of the method and the version, yielding
`Get /index.html HTTP1_0`, not the wire-format `GET /index.html HTTP/1.0`
the claim states. -/
theorem C9_counterexample :
    logRequestLine { method := .get, uri := "/index.html", version := .http1_0,
                     headers := some [], body := none } =
      "Get /index.html HTTP1_0" ∧
    ("Get /index.html HTTP1_0" : String) ≠
      HttpMethod.get.displayStr ++ " " ++ "/index.html" ++ " " ++
        HttpVersion.http1_0.displayStr := by
  exact ⟨rfl, by decide⟩

/-- C9 (amended): the access-log line has the claimed field order (peer
address, literal `-`, quoted literal `-`, bracketed timestamp, quoted
request line, status code, response body byte length, quoted Referer or
`-`, quoted User-Agent or `-`), but the quoted request-line field uses the
Debug renderings of the method and the version (`Get`, `HTTP1_0`) rather
than the wire-format tokens. -/
theorem C9_amended (request : HttpRequest) (response : HttpResponse)
    (remote_addr time_local : String) :
    write_request_log_line request response remote_addr time_local =
      remote_addr ++ " - " ++ "\"-\"" ++ " [" ++ time_local ++ "] \"" ++
        (request.method.debugStr ++ " " ++ request.uri ++ " " ++
          request.version.debugStr) ++
        "\" " ++ Nat.repr response.status.code ++ " " ++
        Nat.repr ((response.body.map String.utf8ByteSize).getD 0) ++ " \"" ++
        ((getH (request.headers.getD []) "Referer").getD "-") ++ "\" \"" ++
        ((getH (request.headers.getD []) "User-Agent").getD "-") ++ "\"" ++
        "\n" := rfl

/-! ### C10 -/

theorem splitOnceCharAux_none_of_not_contains (c : Char) (l : List Char)
    (h : l.contains c = false) : ∀ acc, splitOnceCharAux c acc l = none := by
  induction l with
  | nil => intro acc; rfl
  | cons x rest ih =>
    intro acc
    simp only [List.contains_cons, Bool.or_eq_false_iff, beq_eq_false_iff_ne] at h
    simp only [splitOnceCharAux]
    rw [if_neg (Ne.symm h.1)]
    exact ih h.2 _

theorem splitOnceCharAux_some_of_contains (c : Char) (l : List Char)
    (h : l.contains c = true) : ∀ acc, ∃ pr, splitOnceCharAux c acc l = some pr := by
  induction l with
  | nil => simp [List.contains] at h
  | cons x rest ih =>
    intro acc
    by_cases hx : x = c
    · subst hx
      refine ⟨(String.mk acc.reverse, String.mk rest), ?_⟩
      simp [splitOnceCharAux]
    · have h2 : rest.contains c = true := by
        simp only [List.contains_cons, Bool.or_eq_true, beq_iff_eq] at h
        rcases h with h | h
        · exact absurd h.symm hx
        · exact h
      obtain ⟨pr, hpr⟩ := ih h2 (x :: acc)
      refine ⟨pr, ?_⟩
      simp only [splitOnceCharAux]
      rw [if_neg hx]
      exact hpr

theorem parse_headers_from_reaches_bad (bad : String)
    (hbadcol : bad.data.contains ':' = false) (hbadne : bad ≠ "") :
    ∀ (hs : List String), (∀ h2 ∈ hs, h2.data.contains ':' = true) →
    ∀ (acc : HttpHeaders) (rest : List StreamItem),
      parse_headers_from acc
          ((hs.map StreamItem.line) ++ StreamItem.line bad :: rest) =
        .error (.malformedRequest ("Malformed header: " ++ bad)) := by
  intro hs
  induction hs with
  | nil =>
    intro _ acc rest
    have hnone : splitOnceChar bad ':' = none :=
      splitOnceCharAux_none_of_not_contains ':' bad.data hbadcol []
    simp only [List.map_nil, List.nil_append, parse_headers_from, if_neg hbadne,
               hnone]
  | cons h2 hs ih =>
    intro hall acc rest
    have hcol : h2.data.contains ':' = true := hall h2 (List.mem_cons_self h2 hs)
    have hne : h2 ≠ "" := by
      intro he
      rw [he] at hcol
      simp [List.contains] at hcol
    obtain ⟨pr, hpr⟩ := splitOnceCharAux_some_of_contains ':' h2.data hcol []
    obtain ⟨f1, f2⟩ := pr
    have hsc : splitOnceChar h2 ':' = some (f1, f2) := hpr
    simp only [List.map_cons, List.cons_append, parse_headers_from, if_neg hne,
               hsc]
    exact ih (fun x hx => hall x (List.mem_cons_of_mem h2 hx)) _ rest

/-- C10: header syntax errors take precedence over request-line token
errors: with a three-token request line, a colon-less header line before
the blank line makes `from_stream` fail with `MalformedRequest` citing
that line, for every method token and version token, because the header
block is parsed before the method and version tokens. -/
theorem C10_header_error_precedence (l m t v bad : String)
    (hs : List String) (rest : List StreamItem)
    (hsplit : splitWhitespace l = [m, t, v])
    (hall : ∀ h2 ∈ hs, h2.data.contains ':' = true)
    (hbadcol : bad.data.contains ':' = false) (hbadne : bad ≠ "") :
    from_stream (StreamItem.line l ::
        ((hs.map StreamItem.line) ++ StreamItem.line bad :: rest)) =
      .error (.malformedRequest ("Malformed header: " ++ bad)) := by
  have hph : parse_headers ((hs.map StreamItem.line) ++ StreamItem.line bad :: rest) =
      .error (.malformedRequest ("Malformed header: " ++ bad)) :=
    parse_headers_from_reaches_bad bad hbadcol hbadne hs hall [] rest
  simp only [from_stream, hsplit, hph]

/-- Witness for C10: a `POST` request line with an unknown version, one
well-formed header, then a colon-less line: the parse fails on the header,
not on the method or version. -/
theorem C10_header_error_precedence_witness :
    splitWhitespace "POST / HTTP/9.9" = ["POST", "/", "HTTP/9.9"] ∧
    from_stream [StreamItem.line "POST / HTTP/9.9", StreamItem.line "Host: x",
                 StreamItem.line "BadHeader", StreamItem.line ""] =
      .error (.malformedRequest ("Malformed header: " ++ "BadHeader")) := by
  refine ⟨by decide, ?_⟩
  exact C10_header_error_precedence "POST / HTTP/9.9" "POST" "/" "HTTP/9.9"
    "BadHeader" ["Host: x"] [StreamItem.line ""]
    (by decide) (by decide) (by decide) (by decide)

end Serve
